import Mathlib

/-!
Formal model of the PhysioViz cross-stream temporal alignment engine.

The development shallowly embeds the alignment core described by the design
document and the visible source (`src/main.py`): stream descriptors, the
nearest-match Timestamp Locator, the Truncation Calculator, the Frame
Navigator, the data-loading pipeline of `main.py`, and the centralized
click handler `handle_all_clicks`.

Wall-clock instants are modelled over an arbitrary linear ordered
commutative ring `T` (the design document directs that the nearest-match
comparisons be realized "with integer or fixed-epsilon comparisons" where
the source's floating behavior is ambiguous, so exact arithmetic is the
intended semantics; concrete evaluations instantiate `T := ℤ`, exact
integer ticks).  Sample indices are naturals, and fallible steps return
`Except`.
-/

deriving instance DecidableEq for Except

namespace PhysioViz

variable {T : Type} [LinearOrderedCommRing T]

/-- Sensor kind tag of a stream (design document, data model section). -/
inductive StreamKind where
  | camera | eye | emg | insole | imu | skeleton
deriving DecidableEq

/-- Stream Descriptor: one sensor's timing metadata.  `timestamps` is the
ordered sequence of wall-clock sample instants; `startIndex`/`endIndex` are
the inclusive bounds of the truncated addressable region (before truncation
`startIndex = 0`, `endIndex = raw length - 1`). -/
structure StreamDesc (T : Type) where
  id : String
  kind : StreamKind
  timestamps : List T
  nominalRate : T
  isReference : Bool
  startIndex : ℕ
  endIndex : ℕ
deriving DecidableEq

/-- First timestamp of a stream (0 when the stream is empty). -/
def headT [Zero T] (s : StreamDesc T) : T := s.timestamps.getD 0 0

/-- Last timestamp of a stream (0 when the stream is empty). -/
def lastT [Zero T] (s : StreamDesc T) : T :=
  s.timestamps.getD (s.timestamps.length - 1) 0

/-! ## Timestamp Locator

Modelled from the spec: the Timestamp Locator lives in the non-visible
`sync_utils`/component helpers; the design document specifies it as the
index in `[0, len-1]` minimizing `|timestamps[i] - t|`, with the earlier
index preferred on ties, and with instants outside
`[timestamps[0], timestamps[-1]]` clamped to the nearest boundary index.
The O(log n) binary-search requirement is a complexity property only; the
functional contract is modelled as a least-argmin scan preceded by the
explicit boundary clamp. -/

/-- One comparison step of the nearest-index scan: move to candidate `j`
only when it is strictly nearer to `t` (so the earlier index wins ties). -/
def bestIdx (ts : List T) (t : T) (i j : ℕ) : ℕ :=
  if |ts.getD j 0 - t| < |ts.getD i 0 - t| then j else i

/-- Least index of `ts` whose timestamp minimizes the distance to `t`. -/
def argminIdx (ts : List T) (t : T) : ℕ :=
  (List.range ts.length).foldl (bestIdx ts t) 0

/-- Modelled from the spec: the Timestamp Locator.  Out-of-range instants
clamp to the nearest boundary index; in-range instants resolve to the
least index minimizing `|timestamps[i] - t|`. -/
def locate (ts : List T) (t : T) : ℕ :=
  if t < ts.getD 0 0 then 0
  else if ts.getD (ts.length - 1) 0 < t then ts.length - 1
  else argminIdx ts t

/-- The addressable segment `[s, e]` of a timestamp list. -/
def segment (ts : List T) (s e : ℕ) : List T :=
  (ts.drop s).take (e + 1 - s)

/-- Modelled from the spec: the Timestamp Locator's second mode, with the
search restricted to the truncated region `[s, e]`. -/
def locateBounded (ts : List T) (s e : ℕ) (t : T) : ℕ :=
  s + locate (segment ts s e) t

/-! ## Truncation Calculator

Modelled from the spec: `calculate_truncation_points` lives in the
non-visible `sync_utils` module; `src/main.py` only invokes it (with the
reference camera's frame 100 as baseline).  The design document describes
it as an interval-intersection: every participating stream contributes its
own wall-clock interval `[timestamps[0], timestamps[-1]]`; streams with
zero samples are excluded entirely; the intersection
`[globalStart, globalEnd]` is re-projected into each stream's index space
through the Timestamp Locator.  An empty intersection is the fatal
`EmptyOverlap`; an anchor outside the intersection is the fatal
`BaselineOutOfWindow`. -/

/-- Fatal alignment errors of the Truncation Calculator. -/
inductive AlignError where
  | emptyOverlap | baselineOutOfWindow
deriving DecidableEq

/-- Maximum of a list (0 for the empty list, which callers exclude). -/
def listMax [Zero T] : List T → T
  | [] => 0
  | x :: xs => xs.foldl max x

/-- Minimum of a list (0 for the empty list, which callers exclude). -/
def listMin [Zero T] : List T → T
  | [] => 0
  | x :: xs => xs.foldl min x

/-- Streams taking part in the intersection: every stream with at least
one sample (the reference first, as loaded by `main.py`). -/
def participants (ref : StreamDesc T) (others : List (StreamDesc T)) :
    List (StreamDesc T) :=
  (ref :: others).filter (fun s => !s.timestamps.isEmpty)

/-- Latest first-timestamp over the participating streams. -/
def globalStart (ref : StreamDesc T) (others : List (StreamDesc T)) : T :=
  listMax ((participants ref others).map headT)

/-- Earliest last-timestamp over the participating streams. -/
def globalEnd (ref : StreamDesc T) (others : List (StreamDesc T)) : T :=
  listMin ((participants ref others).map lastT)

/-- Modelled from the spec: the Truncation Calculator
(`calculate_truncation_points`).  Computes the anchor timestamp from the
reference's raw timeline, intersects all participating streams' wall-clock
intervals, and re-projects the intersection bounds into each stream's own
index space via the Timestamp Locator; fails with `EmptyOverlap` when the
intersection is empty and with `BaselineOutOfWindow` when the anchor lies
outside it. -/
def calculate_truncation_points (ref : StreamDesc T) (others : List (StreamDesc T))
    (baseline : ℕ) : Except AlignError (T × List (ℕ × ℕ)) :=
  let ps := participants ref others
  let anchor := ref.timestamps.getD baseline 0
  let gs := globalStart ref others
  let ge := globalEnd ref others
  if ge < gs then .error .emptyOverlap
  else if anchor < gs ∨ ge < anchor then .error .baselineOutOfWindow
  else .ok (anchor, ps.map (fun s => (locate s.timestamps gs, locate s.timestamps ge)))

/-- Property named by the Alignment Window invariant: the stream has at
least one sample at or after the anchor instant. -/
@[reducible]
def coversAnchor (s : StreamDesc T) (a : T) : Prop :=
  ∃ i, i < s.timestamps.length ∧ a ≤ s.timestamps.getD i 0

/-- Property named by the Alignment Window invariant: the window pair `b`
of a stream brackets the anchor,
`timestamps[start_index] <= anchor <= timestamps[end_index]`. -/
@[reducible]
def windowValidAt (s : StreamDesc T) (a : T) (b : ℕ × ℕ) : Prop :=
  s.timestamps.getD b.1 0 ≤ a ∧ a ≤ s.timestamps.getD b.2 0

/-! ## Frame Navigator

Modelled from the spec: the Frame Navigator holds the single canonical
current reference offset; `set_frame` validates the offset against the
reference's truncated length, the sync timestamp is derived from the
reference stream, and `resolve` re-derives every other stream's index from
that shared instant through the bounded Timestamp Locator. -/

/-- Truncated addressable length of a stream, `end_index - start_index + 1`. -/
def truncLen (s : StreamDesc T) : ℕ := s.endIndex - s.startIndex + 1

/-- Frame Navigator state: the reference stream plus the current reference
offset (an offset into the truncated reference timeline). -/
structure Navigator (T : Type) where
  ref : StreamDesc T
  offset : ℕ
deriving DecidableEq

/-- Modelled from the spec: `set_frame` validates
`0 <= offset < truncated_length` and commits the offset (an invalid offset
is rejected, leaving the state unchanged). -/
def set_frame (nav : Navigator T) (f : ℕ) : Navigator T :=
  if f < truncLen nav.ref then { nav with offset := f } else nav

/-- The shared sync timestamp derived from the navigator state:
`reference.timestamps[reference.start_index + offset]`. -/
def syncTimestamp (nav : Navigator T) : T :=
  nav.ref.timestamps.getD (nav.ref.startIndex + nav.offset) 0

/-- Modelled from the spec: `resolve_reference`, trivially
`reference.start_index + current_reference_offset`. -/
def resolve_reference (nav : Navigator T) : ℕ :=
  nav.ref.startIndex + nav.offset

/-- Resolve a stream's sample index nearest to an instant, bounded to the
stream's truncated region (the Timestamp Locator's second mode applied to
one stream). -/
def resolveAt (s : StreamDesc T) (t : T) : ℕ :=
  locateBounded s.timestamps s.startIndex s.endIndex t

/-- Modelled from the spec: `resolve(stream)` re-derives the stream's index
from the navigator's shared sync timestamp on every call. -/
def resolve (nav : Navigator T) (s : StreamDesc T) : ℕ :=
  resolveAt s (syncTimestamp nav)

/-- The `resolve` operation in explicit state-passing form: it returns the
resolved index together with the (unchanged) navigator and stream state,
making purity a provable statement. -/
def resolveS (nav : Navigator T) (s : StreamDesc T) :
    ℕ × Navigator T × StreamDesc T :=
  (resolve nav s, nav, s)

/-- The index `i` lies in the stream's truncated region and is nearest
(over that region) to the instant `t`. -/
def nearestWithin (s : StreamDesc T) (t : T) (i : ℕ) : Prop :=
  s.startIndex ≤ i ∧ i ≤ s.endIndex ∧
  ∀ j, s.startIndex ≤ j → j ≤ s.endIndex →
    |s.timestamps.getD i 0 - t| ≤ |s.timestamps.getD j 0 - t|

/-! ## Data-loading pipeline of `src/main.py`

This embeds the module-level loading logic (lines 117-298): camera
loading with the reference-count validation, the eye/EMG/insole/skeleton/
IMU loaders with their try/except recovery, and the final invocation of
the Truncation Calculator.  File availability is a boolean per path and
each constructor's outcome is an `Except` value (an `error` models a
raised exception). -/

/-- One entry of `CAMERA_CONFIGS`. -/
structure CameraConfig where
  videoFile : String
  uniqueId : String
  isReference : Bool
deriving DecidableEq

/-- Errors that abort session construction in `main.py`. -/
inductive SessionError where
  | cameraLoadFailure
  | missingReference
  | ambiguousReference
  | alignError (e : AlignError)
deriving DecidableEq

/-- The constructed session: the reference camera stream, the full
`all_components` list, and the computed Alignment Window. -/
structure Session (T : Type) where
  referenceCam : StreamDesc T
  components : List (StreamDesc T)
  anchor : T
  window : List (ℕ × ℕ)
deriving DecidableEq

/-- Camera loading loop (lines 129-145): a camera whose video file is
absent is skipped with a warning; a camera whose constructor raises is NOT
caught (no try/except in the loop), so the exception propagates. -/
def loadCamerasE (avail : String → Bool)
    (camLoad : String → Except Unit (StreamDesc T)) :
    List CameraConfig → Except Unit (List (Bool × StreamDesc T))
  | [] => .ok []
  | c :: rest =>
    if avail c.videoFile then
      match camLoad c.uniqueId with
      | .ok d => (loadCamerasE avail camLoad rest).map (fun l => (c.isReference, d) :: l)
      | .error e => .error e
    else loadCamerasE avail camLoad rest

/-- The `reference_camera_count` computed by the loop (lines 127-143): the
number of loaded (file-present) cameras flagged as reference. -/
def reference_camera_count (avail : String → Bool)
    (cfgs : List CameraConfig) : ℕ :=
  (cfgs.filter (fun c => avail c.videoFile)).countP (·.isReference)

/-- State of the `eye_camera` / `emg_component` variables during lines
153-193 of `main.py`.  `emgComponent = none` means the Python name has not
been assigned yet; `some v` means it currently holds `v`. -/
structure EyeEmgState (T : Type) where
  eyeCamera : Option (StreamDesc T)
  emgComponent : Option (Option (StreamDesc T))
deriving DecidableEq

/-- Lines 153-169: the eye-camera block.  On a constructor exception the
handler prints a warning and assigns `emg_component = None` (note: the
handler touches `emg_component`, not `eye_camera`). -/
def eyeBlock (eyeAvail : Bool) (gazeLoad : Except Unit (StreamDesc T))
    (st : EyeEmgState T) : EyeEmgState T :=
  if eyeAvail then
    match gazeLoad with
    | .ok c => { st with eyeCamera := some c }
    | .error _ => { st with emgComponent := some none }
  else st

/-- Lines 172-193: the EMG block.  `emg_component` is unconditionally
reassigned to `None` first (line 172), then loaded under try/except. -/
def emgBlock (emgAvail : Bool) (emgLoad : Except Unit (StreamDesc T))
    (st : EyeEmgState T) : EyeEmgState T :=
  let st1 : EyeEmgState T := { st with emgComponent := some none }
  if emgAvail then
    match emgLoad with
    | .ok c => { st1 with emgComponent := some (some c) }
    | .error _ => { st1 with emgComponent := some none }
  else st1

/-- The sequential execution of the eye block followed by the EMG block,
starting from `eye_camera = None` and `emg_component` unassigned. -/
def loadEyeThenEmg (eyeAvail : Bool) (gazeLoad : Except Unit (StreamDesc T))
    (emgAvail : Bool) (emgLoad : Except Unit (StreamDesc T)) : EyeEmgState T :=
  emgBlock emgAvail emgLoad (eyeBlock eyeAvail gazeLoad ⟨none, none⟩)

/-- Availability-gated load under try/except: absent or raising loaders
yield `none` (the component stays `None`), as in the insole and skeleton
blocks (lines 196-235). -/
def loadOpt (avail : Bool) (l : Except Unit (StreamDesc T)) :
    Option (StreamDesc T) :=
  if avail then
    match l with
    | .ok c => some c
    | .error _ => none
  else none

/-- Lines 237-275: the three IMU components share a single try/except, so
one failure clears all three; absence of the MVN file skips them all. -/
def loadImus (mvnAvail : Bool)
    (imuLoad : Except Unit (StreamDesc T × StreamDesc T × StreamDesc T)) :
    List (StreamDesc T) :=
  if mvnAvail then
    match imuLoad with
    | .ok (a, b, c) => [a, b, c]
    | .error _ => []
  else []

/-- The session construction from the camera stage onward: reference-count
validation (lines 147-151), assembly of the component lists in the order
of line 297 (cameras, eye, EMG, skeleton, insole, IMU), and the Truncation
Calculator invocation (lines 287-294). -/
def sessionAfterCameras (cfgs : List CameraConfig) (avail : String → Bool)
    (camLoad : String → Except Unit (StreamDesc T))
    (eyeOpt emgOpt skelOpt insOpt : Option (StreamDesc T))
    (imus : List (StreamDesc T)) (baseline : ℕ) :
    Except SessionError (Session T) :=
  match loadCamerasE avail camLoad cfgs with
  | .error _ => .error .cameraLoadFailure
  | .ok cams =>
    if cams.countP (·.1) = 0 then .error .missingReference
    else if 1 < cams.countP (·.1) then .error .ambiguousReference
    else
      match cams.find? (·.1) with
      | none => .error .missingReference
      | some rc =>
        let rest := eyeOpt.toList ++ emgOpt.toList ++ skelOpt.toList ++
          insOpt.toList ++ imus
        let comps := (cams.map (·.2)) ++ rest
        let others := ((cams.filter (fun p => !p.1)).map (·.2)) ++ rest
        match calculate_truncation_points rc.2 others baseline with
        | .error e => .error (.alignError e)
        | .ok (a, w) => .ok ⟨rc.2, comps, a, w⟩

/-- The whole module-level loading pipeline of `main.py` (lines 117-298):
camera loading and validation, the eye/EMG sequential blocks (with the
eye handler's `emg_component = None` slip), the insole, skeleton and IMU
loaders, then the Truncation Calculator on the loaded streams. -/
def loadPipeline (cfgs : List CameraConfig) (avail : String → Bool)
    (camLoad : String → Except Unit (StreamDesc T))
    (eyeAvail : Bool) (gazeLoad : Except Unit (StreamDesc T))
    (emgAvail : Bool) (emgLoad : Except Unit (StreamDesc T))
    (insAvail : Bool) (insLoad : Except Unit (StreamDesc T))
    (mvnAvail : Bool) (skelLoad : Except Unit (StreamDesc T))
    (imuLoad : Except Unit (StreamDesc T × StreamDesc T × StreamDesc T))
    (baseline : ℕ) : Except SessionError (Session T) :=
  let st := loadEyeThenEmg eyeAvail gazeLoad emgAvail emgLoad
  sessionAfterCameras cfgs avail camLoad st.eyeCamera (st.emgComponent.getD none)
    (loadOpt mvnAvail skelLoad) (loadOpt insAvail insLoad)
    (loadImus mvnAvail imuLoad) baseline

/-! ## The click handler `handle_all_clicks` (lines 494-627)

The clicked components' lookup helpers live outside `src/`; they are
modelled as total functions carried by the view structures (per the design
document the sync lookup returns a valid clamped sample index, hence a
natural number).  A Python `IndexError` on a list read is modelled by the
handler returning `none`; every other path returns `some` string.  Click
payloads are `Option Point` (a Dash `clickData` with its first point's x
coordinate, `None` when absent); plot x coordinates and sampling rates are
rationals. -/

/-- View of one camera component as used by the click handler. -/
structure CamView (T : Type) where
  uniqueId : String
  isReferenceCamera : Bool
  startFrame : ℕ
  getFrameForTimestamp : Option T → ℕ
  getTimestampAtFrame : ℕ → T

/-- View of the eye camera component as used by the click handler. -/
structure EyeView (T : Type) where
  getFrameForTimestamp : Option T → ℕ
  getTimestampAtFrame : ℕ → T

/-- View of a line-plot component (EMG, insole) as used by the handler. -/
structure PlotView (T : Type) where
  sampleTimestamps : List T
  plotWindowSeconds : ℚ
  samplingRate : ℚ
  getTimestampForSync : Option T → ℕ

/-- View of a time-series component (skeleton, IMU) as used by the handler. -/
structure SeriesView (T : Type) where
  timestamps : List T
  getTimestampForSync : Option T → ℕ

/-- A click payload's first point: its x plot coordinate in seconds. -/
structure Point where
  x : ℚ
deriving DecidableEq

/-- Python `int()` applied to a float: truncation toward zero. -/
def pyInt (q : ℚ) : ℤ := if 0 ≤ q then ⌊q⌋ else ⌈q⌉

/-- Python `//` on integers: floor division. -/
def pyFloorDiv (a b : ℤ) : ℤ := Int.fdiv a b

/-- Python truthiness of the sync timestamp store value: `None` and `0`
are falsy. -/
def truthy (t : Option T) : Bool :=
  match t with
  | none => false
  | some q => if q = 0 then false else true

/-- The `click_inputs` entry contributed by one optional component: one
argument slot when the component exists, none otherwise (lines 497-510). -/
def optClick {β : Type} (o : Option β) (c : Option Point) : List (Option Point) :=
  match o with
  | some _ => [c]
  | none => []

/-- The ordered `args` tuple received by `handle_all_clicks`, mirroring
the construction of `click_inputs` (lines 494-510): one slot per camera,
then eye, EMG, skeleton, insole, and the three IMU plots, each present
exactly when its component is. -/
def clickArgs (cams : List (CamView T)) (eye : Option (EyeView T))
    (emg : Option (PlotView T)) (skel : Option (SeriesView T))
    (insole : Option (PlotView T)) (imuA imuG imuM : Option (SeriesView T))
    (camClicks : List (Option Point))
    (eyeClick emgClick skelClick insoleClick imuAClick imuGClick imuMClick :
      Option Point) : List (Option Point) :=
  ((List.range cams.length).map (fun i => camClicks.getD i none)) ++
    (optClick eye eyeClick ++ (optClick emg emgClick ++ (optClick skel skelClick ++
      (optClick insole insoleClick ++ (optClick imuA imuAClick ++
        (optClick imuG imuGClick ++ optClick imuM imuMClick))))))

section ClickHandler

variable [ToString T]

/-- The camera loop of the handler (lines 535-542): the first camera whose
id matches the trigger answers; the reference camera uses
`start_frame + current_frame`, others resolve through the sync timestamp. -/
def handle_camera_clicks : List (CamView T) → String → ℕ → Option T → Option String
  | [], _, _, _ => none
  | cam :: rest, trigger, currentFrame, sync =>
    if trigger = cam.uniqueId ++ "-video" then
      let actualFrame :=
        if cam.isReferenceCamera then cam.startFrame + currentFrame
        else cam.getFrameForTimestamp sync
      some ("Camera " ++ cam.uniqueId ++ " - toa_s: " ++
        toString (cam.getTimestampAtFrame actualFrame))
    else handle_camera_clicks rest trigger currentFrame sync

/-- The eye-video branch (lines 545-549): answers only when the eye camera
exists, its id matches, and the sync timestamp is truthy. -/
def eye_click_branch (eye : Option (EyeView T)) (trigger : String)
    (sync : Option T) : Option String :=
  match eye with
  | none => none
  | some comp =>
    if trigger = "eye_world-video" then
      if truthy sync then
        some ("Eye video - frame_timestamp: " ++
          toString (comp.getTimestampAtFrame (comp.getFrameForTimestamp sync)))
      else none
    else none

/-- The EMG branch (lines 552-574).  Outer `none` models a raised
`IndexError`; `some none` means the branch falls through. -/
def emg_click_branch (cams : List (CamView T)) (eye : Option (EyeView T))
    (emg : Option (PlotView T)) (trigger : String)
    (args : List (Option Point)) (sync : Option T) : Option (Option String) :=
  match emg with
  | none => some none
  | some comp =>
    if trigger = "emg_cometa-lineplot" then
      let clickIdx := cams.length + (if eye.isSome then 1 else 0)
      match args.get? clickIdx with
      | none => none
      | some emgClick =>
        match emgClick with
        | none => some none
        | some pt =>
          let currentIdx : ℤ := (comp.getTimestampForSync sync : ℤ)
          let windowSamples : ℤ := pyInt (comp.plotWindowSeconds * comp.samplingRate)
          let halfWindow : ℤ := pyFloorDiv windowSamples 2
          let startIdx : ℤ := max 0 (currentIdx - halfWindow)
          let clickedIdx : ℤ := pyInt ((startIdx : ℚ) + pt.x * comp.samplingRate)
          if 0 ≤ clickedIdx ∧ clickedIdx < (comp.sampleTimestamps.length : ℤ) then
            match comp.sampleTimestamps.get? clickedIdx.toNat with
            | none => none
            | some v =>
              some (some ("EMG cometa - toa_s: " ++ toString v ++
                " (index: " ++ toString clickedIdx ++ ")"))
          else some none
    else some none

/-- The insole branch (lines 577-599), same shape as the EMG branch with
its own argument-slot computation. -/
def insole_click_branch (cams : List (CamView T)) (eye : Option (EyeView T))
    (emg : Option (PlotView T)) (skel : Option (SeriesView T))
    (insole : Option (PlotView T)) (trigger : String)
    (args : List (Option Point)) (sync : Option T) : Option (Option String) :=
  match insole with
  | none => some none
  | some comp =>
    if trigger = "insole_forces-lineplot" then
      let clickIdx := cams.length + (if eye.isSome then 1 else 0) +
        (if emg.isSome then 1 else 0) + (if skel.isSome then 1 else 0)
      match args.get? clickIdx with
      | none => none
      | some insoleClick =>
        match insoleClick with
        | none => some none
        | some pt =>
          let currentIdx : ℤ := (comp.getTimestampForSync sync : ℤ)
          let windowSamples : ℤ := pyInt (comp.plotWindowSeconds * comp.samplingRate)
          let halfWindow : ℤ := pyFloorDiv windowSamples 2
          let startIdx : ℤ := max 0 (currentIdx - halfWindow)
          let clickedIdx : ℤ := pyInt ((startIdx : ℚ) + pt.x * comp.samplingRate)
          if 0 ≤ clickedIdx ∧ clickedIdx < (comp.sampleTimestamps.length : ℤ) then
            match comp.sampleTimestamps.get? clickedIdx.toNat with
            | none => none
            | some v =>
              some (some ("Insole forces - toa_s: " ++ toString v ++
                " (index: " ++ toString clickedIdx ++ ")"))
          else some none
    else some none

/-- The skeleton branch (lines 602-606): the timestamp array is read only
when the resolved index is in range, with `0` substituted otherwise. -/
def skeleton_click_branch (skel : Option (SeriesView T)) (trigger : String)
    (sync : Option T) : Option (Option String) :=
  match skel with
  | none => some none
  | some comp =>
    if trigger = "skeleton_mvn-skeleton" then
      if truthy sync then
        let currentIdx := comp.getTimestampForSync sync
        if currentIdx < comp.timestamps.length then
          match comp.timestamps.get? currentIdx with
          | none => none
          | some v =>
            some (some ("Skeleton MVN - timestamp_s: " ++ toString v ++
              " (index: " ++ toString currentIdx ++ ")"))
        else
          some (some ("Skeleton MVN - timestamp_s: " ++ toString (0 : T) ++
            " (index: " ++ toString currentIdx ++ ")"))
      else some none
    else some none

/-- The IMU branch (lines 609-625): the component is selected from the
trigger id (split on `-` then `_`); a selected-but-absent component
returns the empty string; reads substitute `0` when out of range. -/
def imu_click_branch (imuA imuG imuM : Option (SeriesView T)) (trigger : String)
    (sync : Option T) : Option (Option String) :=
  if trigger = "imu_accelerometer-imu-plot" ∨ trigger = "imu_gyroscope-imu-plot" ∨
      trigger = "imu_magnetometer-imu-plot" then
    let imuType := (((trigger.splitOn "-").getD 0 "").splitOn "_").getD 1 ""
    let comp? : Option (SeriesView T) :=
      if imuType = "accelerometer" ∧ imuA.isSome then imuA
      else if imuType = "gyroscope" ∧ imuG.isSome then imuG
      else if imuType = "magnetometer" ∧ imuM.isSome then imuM
      else none
    match comp? with
    | none => some (some "")
    | some comp =>
      if truthy sync then
        let currentIdx := comp.getTimestampForSync sync
        if currentIdx < comp.timestamps.length then
          match comp.timestamps.get? currentIdx with
          | none => none
          | some v =>
            some (some ("IMU " ++ imuType ++ " - timestamp_s: " ++ toString v ++
              " (index: " ++ toString currentIdx ++ ")"))
        else
          some (some ("IMU " ++ imuType ++ " - timestamp_s: " ++ toString (0 : T) ++
            " (index: " ++ toString currentIdx ++ ")"))
      else some none
  else some none

/-- The centralized click handler (lines 520-627): tries each branch in
source order and returns the empty string when nothing matches.  `none`
models an uncaught exception escaping the handler. -/
def handle_all_clicks (cams : List (CamView T)) (eye : Option (EyeView T))
    (emg : Option (PlotView T)) (skel : Option (SeriesView T))
    (insole : Option (PlotView T)) (imuA imuG imuM : Option (SeriesView T))
    (trigger : String) (args : List (Option Point)) (currentFrame : ℕ)
    (sync : Option T) : Option String :=
  match handle_camera_clicks cams trigger currentFrame sync with
  | some s => some s
  | none =>
    match eye_click_branch eye trigger sync with
    | some s => some s
    | none =>
      match emg_click_branch cams eye emg trigger args sync with
      | none => none
      | some (some s) => some s
      | some none =>
        match insole_click_branch cams eye emg skel insole trigger args sync with
        | none => none
        | some (some s) => some s
        | some none =>
          match skeleton_click_branch skel trigger sync with
          | none => none
          | some (some s) => some s
          | some none =>
            match imu_click_branch imuA imuG imuM trigger sync with
            | none => none
            | some (some s) => some s
            | some none => some ""

end ClickHandler

/-! ## Concrete inputs used for witnesses and counterexamples

All at `T := ℤ` (integer wall-clock ticks), where evaluation is
kernel-decidable. -/

/-- Reference camera stream: samples at ticks 0, 10, 20. -/
def wRefCam : StreamDesc ℤ :=
  { id := "40478064", kind := .camera, timestamps := [0, 10, 20],
    nominalRate := 60, isReference := true, startIndex := 0, endIndex := 2 }

/-- An EMG stream that starts recording later (tick 9). -/
def wEmg : StreamDesc ℤ :=
  { id := "emg_cometa", kind := .emg, timestamps := [9, 20],
    nominalRate := 2000, isReference := false, startIndex := 0, endIndex := 1 }

/-- A sparsely sampled IMU stream: ticks 0, 15, 30. -/
def wImu : StreamDesc ℤ :=
  { id := "imu_accelerometer", kind := .imu, timestamps := [0, 15, 30],
    nominalRate := 60, isReference := false, startIndex := 0, endIndex := 2 }

/-- A reference stream that starts at tick 100. -/
def wLateCam : StreamDesc ℤ :=
  { id := "late", kind := .camera, timestamps := [100, 110],
    nominalRate := 60, isReference := true, startIndex := 0, endIndex := 1 }

/-- A stream that stops at tick 50 (before `wLateCam` starts). -/
def wEarlyEmg : StreamDesc ℤ :=
  { id := "early", kind := .emg, timestamps := [40, 50],
    nominalRate := 100, isReference := false, startIndex := 0, endIndex := 1 }

/-- A truncated stream: raw samples at ticks 0, 10, 20, 30, addressable
region `[1, 2]`. -/
def wTrunc : StreamDesc ℤ :=
  { id := "trunc", kind := .camera, timestamps := [0, 10, 20, 30],
    nominalRate := 60, isReference := false, startIndex := 1, endIndex := 2 }

/-- A navigator over the reference camera. -/
def wNav : Navigator ℤ := { ref := wRefCam, offset := 0 }

/-- Camera configurations with no reference camera. -/
def wCfgNoRef : List CameraConfig :=
  [{ videoFile := "a.mkv", uniqueId := "a", isReference := false },
   { videoFile := "b.mkv", uniqueId := "b", isReference := false }]

/-- Camera configurations with two reference cameras. -/
def wCfgTwoRef : List CameraConfig :=
  [{ videoFile := "a.mkv", uniqueId := "a", isReference := true },
   { videoFile := "b.mkv", uniqueId := "b", isReference := true }]

/-- Camera configurations with exactly one reference camera. -/
def wCfgOneRef : List CameraConfig :=
  [{ videoFile := "a.mkv", uniqueId := "a", isReference := true },
   { videoFile := "b.mkv", uniqueId := "b", isReference := false }]

/-! ## Proofs about the Timestamp Locator and list helpers -/

theorem bestIdx_cases (ts : List T) (t : T) (i j : ℕ) :
    bestIdx ts t i j = i ∨ bestIdx ts t i j = j := by
  unfold bestIdx; split <;> simp

theorem foldl_bestIdx_lt (ts : List T) (t : T) (l : List ℕ) (acc : ℕ) (n : ℕ)
    (hacc : acc < n) (hl : ∀ i ∈ l, i < n) :
    l.foldl (bestIdx ts t) acc < n := by
  induction l generalizing acc with
  | nil => simpa using hacc
  | cons x xs ih =>
    simp only [List.foldl_cons]
    apply ih
    · rcases bestIdx_cases ts t acc x with h | h <;> rw [h]
      · exact hacc
      · exact hl x (by simp)
    · intro i hi; exact hl i (by simp [hi])

theorem foldl_bestIdx_le_acc (ts : List T) (t : T) (l : List ℕ) (acc : ℕ) :
    |ts.getD (l.foldl (bestIdx ts t) acc) 0 - t| ≤ |ts.getD acc 0 - t| := by
  induction l generalizing acc with
  | nil => simp
  | cons x xs ih =>
    simp only [List.foldl_cons]
    refine le_trans (ih (bestIdx ts t acc x)) ?_
    unfold bestIdx; split
    · exact le_of_lt (by assumption)
    · exact le_refl _

theorem foldl_bestIdx_le_mem (ts : List T) (t : T) (l : List ℕ) (acc : ℕ) :
    ∀ i ∈ l, |ts.getD (l.foldl (bestIdx ts t) acc) 0 - t| ≤ |ts.getD i 0 - t| := by
  induction l generalizing acc with
  | nil => intro i hi; simp at hi
  | cons x xs ih =>
    intro i hi
    simp only [List.foldl_cons]
    rcases List.mem_cons.mp hi with h | h
    · subst h
      refine le_trans (foldl_bestIdx_le_acc ts t xs (bestIdx ts t acc i)) ?_
      unfold bestIdx; split
      · exact le_refl _
      · exact le_of_not_lt (by assumption)
    · exact ih (bestIdx ts t acc x) i h

theorem foldl_bestIdx_stay (ts : List T) (t : T) (l : List ℕ) (acc : ℕ)
    (h : ∀ i ∈ l, ¬ |ts.getD i 0 - t| < |ts.getD acc 0 - t|) :
    l.foldl (bestIdx ts t) acc = acc := by
  induction l with
  | nil => rfl
  | cons x xs ih =>
    simp only [List.foldl_cons]
    have hx : bestIdx ts t acc x = acc := by
      unfold bestIdx; split
      · exact absurd (by assumption) (h x (by simp))
      · rfl
    rw [hx]
    exact ih (fun i hi => h i (by simp [hi]))

theorem argminIdx_lt_length (ts : List T) (t : T) (h : 0 < ts.length) :
    argminIdx ts t < ts.length := by
  unfold argminIdx
  exact foldl_bestIdx_lt ts t _ 0 ts.length h (fun i hi => List.mem_range.mp hi)

theorem argminIdx_nearest (ts : List T) (t : T) :
    ∀ i < ts.length, |ts.getD (argminIdx ts t) 0 - t| ≤ |ts.getD i 0 - t| := by
  intro i hi
  unfold argminIdx
  exact foldl_bestIdx_le_mem ts t _ 0 i (List.mem_range.mpr hi)

theorem getD_mem (l : List T) (n : ℕ) (d : T) (h : n < l.length) : l.getD n d ∈ l := by
  induction l generalizing n with
  | nil => simp at h
  | cons x xs ih =>
    cases n with
    | zero => simp
    | succ k =>
      rw [List.getD_cons_succ]
      exact List.mem_cons_of_mem x (ih k (by simpa using h))

theorem getD_mono (l : List T) (d : T) (hs : List.Sorted (· ≤ ·) l) {i j : ℕ}
    (hij : i ≤ j) (hj : j < l.length) : l.getD i d ≤ l.getD j d := by
  induction l generalizing i j with
  | nil => simp at hj
  | cons x xs ih =>
    rcases List.sorted_cons.mp hs with ⟨hx, hxs⟩
    cases i with
    | zero =>
      cases j with
      | zero => exact le_refl _
      | succ k =>
        rw [List.getD_cons_zero, List.getD_cons_succ]
        exact hx _ (getD_mem xs k d (by simpa using hj))
    | succ i =>
      cases j with
      | zero => exact absurd hij (by simp)
      | succ k =>
        rw [List.getD_cons_succ, List.getD_cons_succ]
        exact ih hxs (Nat.succ_le_succ_iff.mp hij) (by simpa using hj)

theorem locate_lt_length (ts : List T) (t : T) (h : 0 < ts.length) :
    locate ts t < ts.length := by
  unfold locate
  split
  · exact h
  · split
    · exact Nat.sub_lt h Nat.one_pos
    · exact argminIdx_lt_length ts t h

theorem locate_of_le_head (ts : List T) (t : T) (hs : List.Sorted (· ≤ ·) ts)
    (hlen : 0 < ts.length) (h : t ≤ ts.getD 0 0) : locate ts t = 0 := by
  unfold locate
  split
  · rfl
  · rename_i h1
    have ht : t = ts.getD 0 0 := le_antisymm h (le_of_not_lt h1)
    split
    · rename_i h2
      have : ts.getD 0 0 ≤ ts.getD (ts.length - 1) 0 :=
        getD_mono ts 0 hs (Nat.zero_le _) (Nat.sub_lt hlen Nat.one_pos)
      exact absurd (lt_of_le_of_lt this h2) (by rw [ht]; exact lt_irrefl _)
    · unfold argminIdx
      apply foldl_bestIdx_stay
      intro i _
      rw [ht]
      simpa using abs_nonneg (ts.getD i 0 - ts.getD 0 0)

theorem locate_of_last_lt (ts : List T) (t : T) (hs : List.Sorted (· ≤ ·) ts)
    (hlen : 0 < ts.length) (h : ts.getD (ts.length - 1) 0 < t) :
    locate ts t = ts.length - 1 := by
  have h01 : ts.getD 0 0 ≤ ts.getD (ts.length - 1) 0 :=
    getD_mono ts 0 hs (Nat.zero_le _) (Nat.sub_lt hlen Nat.one_pos)
  unfold locate
  rw [if_neg (not_lt.mpr (le_of_lt (lt_of_le_of_lt h01 h))), if_pos h]

theorem locate_nearest (ts : List T) (t : T) (hs : List.Sorted (· ≤ ·) ts) :
    ∀ i < ts.length, |ts.getD (locate ts t) 0 - t| ≤ |ts.getD i 0 - t| := by
  intro i hi
  unfold locate
  split
  · rename_i h1
    have h0i : ts.getD 0 0 ≤ ts.getD i 0 := getD_mono ts 0 hs (Nat.zero_le _) hi
    rw [abs_of_pos (by linarith), abs_of_pos (by linarith)]
    linarith
  · split
    · rename_i h2
      have hij : ts.getD i 0 ≤ ts.getD (ts.length - 1) 0 :=
        getD_mono ts 0 hs (by omega) (by omega)
      rw [abs_of_neg (by linarith), abs_of_neg (by linarith)]
      linarith
    · exact argminIdx_nearest ts t i hi

theorem segment_length (ts : List T) (s e : ℕ) (hse : s ≤ e) (he : e < ts.length) :
    (segment ts s e).length = e + 1 - s := by
  unfold segment
  rw [List.length_take, List.length_drop]
  omega

theorem segment_getD (ts : List T) (s e : ℕ) (d : T) (i : ℕ) (hi : i < e + 1 - s) :
    (segment ts s e).getD i d = ts.getD (s + i) d := by
  unfold segment
  rw [List.getD_eq_getD_get?, List.getD_eq_getD_get?, List.get?_take hi,
    List.get?_drop]

theorem segment_sorted (ts : List T) (s e : ℕ) (hs : List.Sorted (· ≤ ·) ts) :
    List.Sorted (· ≤ ·) (segment ts s e) := by
  unfold segment
  exact List.Pairwise.sublist ((List.take_sublist _ _).trans (List.drop_sublist _ _)) hs

theorem locateBounded_mem (ts : List T) (s e : ℕ) (t : T) (hse : s ≤ e)
    (he : e < ts.length) :
    s ≤ locateBounded ts s e t ∧ locateBounded ts s e t ≤ e := by
  unfold locateBounded
  constructor
  · exact Nat.le_add_right s _
  · have hlen : 0 < (segment ts s e).length := by
      rw [segment_length ts s e hse he]; omega
    have := locate_lt_length (segment ts s e) t hlen
    rw [segment_length ts s e hse he] at this
    omega

theorem locateBounded_before (ts : List T) (s e : ℕ) (t : T)
    (hs : List.Sorted (· ≤ ·) ts) (hse : s ≤ e) (he : e < ts.length)
    (h : t ≤ ts.getD s 0) : locateBounded ts s e t = s := by
  unfold locateBounded
  have hlen : 0 < (segment ts s e).length := by
    rw [segment_length ts s e hse he]; omega
  have h0 : (segment ts s e).getD 0 0 = ts.getD s 0 := by
    have := segment_getD ts s e 0 0 (by omega)
    simpa using this
  rw [locate_of_le_head (segment ts s e) t (segment_sorted ts s e hs) hlen (h0 ▸ h)]
  omega

theorem locateBounded_after (ts : List T) (s e : ℕ) (t : T)
    (hs : List.Sorted (· ≤ ·) ts) (hse : s ≤ e) (he : e < ts.length)
    (h : ts.getD e 0 < t) : locateBounded ts s e t = e := by
  unfold locateBounded
  have hseg : (segment ts s e).length = e + 1 - s := segment_length ts s e hse he
  have hlen : 0 < (segment ts s e).length := by omega
  have hlast : (segment ts s e).getD ((segment ts s e).length - 1) 0 = ts.getD e 0 := by
    rw [hseg]
    have := segment_getD ts s e 0 (e - s) (by omega)
    rw [show e + 1 - s - 1 = e - s by omega, this, show s + (e - s) = e by omega]
  rw [locate_of_last_lt (segment ts s e) t (segment_sorted ts s e hs) hlen (hlast ▸ h),
    hseg]
  omega

theorem locateBounded_nearest (ts : List T) (s e : ℕ) (t : T)
    (hs : List.Sorted (· ≤ ·) ts) (hse : s ≤ e) (he : e < ts.length) :
    ∀ j, s ≤ j → j ≤ e →
      |ts.getD (locateBounded ts s e t) 0 - t| ≤ |ts.getD j 0 - t| := by
  intro j hsj hje
  have hseg : (segment ts s e).length = e + 1 - s := segment_length ts s e hse he
  have hlen : 0 < (segment ts s e).length := by omega
  have hloc := locate_lt_length (segment ts s e) t hlen
  have h1 : ts.getD (locateBounded ts s e t) 0 =
      (segment ts s e).getD (locate (segment ts s e) t) 0 := by
    unfold locateBounded
    rw [segment_getD ts s e 0 (locate (segment ts s e) t) (by omega)]
  have h2 : ts.getD j 0 = (segment ts s e).getD (j - s) 0 := by
    rw [segment_getD ts s e 0 (j - s) (by omega), show s + (j - s) = j by omega]
  rw [h1, h2]
  exact locate_nearest (segment ts s e) t (segment_sorted ts s e hs) (j - s) (by omega)

theorem le_foldl_max (l : List T) (a : T) : a ≤ l.foldl max a := by
  induction l generalizing a with
  | nil => exact le_refl a
  | cons x xs ih => exact le_trans (le_max_left a x) (ih (max a x))

theorem mem_le_foldl_max (l : List T) (a : T) : ∀ x ∈ l, x ≤ l.foldl max a := by
  induction l generalizing a with
  | nil => intro x hx; simp at hx
  | cons y ys ih =>
    intro x hx
    rcases List.mem_cons.mp hx with h | h
    · subst h
      exact le_trans (le_max_right a x) (le_foldl_max ys (max a x))
    · exact ih (max a y) x h

theorem foldl_max_mem (l : List T) (a : T) :
    l.foldl max a = a ∨ l.foldl max a ∈ l := by
  induction l generalizing a with
  | nil => left; rfl
  | cons x xs ih =>
    rcases ih (max a x) with h | h
    · rcases max_choice a x with hm | hm
      · left; rw [List.foldl_cons, h, hm]
      · right; rw [List.foldl_cons, h, hm]; simp
    · right; simp [h]

theorem foldl_min_le (l : List T) (a : T) : l.foldl min a ≤ a := by
  induction l generalizing a with
  | nil => exact le_refl a
  | cons x xs ih => exact le_trans (ih (min a x)) (min_le_left a x)

theorem foldl_min_le_mem (l : List T) (a : T) : ∀ x ∈ l, l.foldl min a ≤ x := by
  induction l generalizing a with
  | nil => intro x hx; simp at hx
  | cons y ys ih =>
    intro x hx
    rcases List.mem_cons.mp hx with h | h
    · subst h
      exact le_trans (foldl_min_le ys (min a x)) (min_le_right a x)
    · exact ih (min a y) x h

theorem foldl_min_mem (l : List T) (a : T) :
    l.foldl min a = a ∨ l.foldl min a ∈ l := by
  induction l generalizing a with
  | nil => left; rfl
  | cons x xs ih =>
    rcases ih (min a x) with h | h
    · rcases min_choice a x with hm | hm
      · left; rw [List.foldl_cons, h, hm]
      · right; rw [List.foldl_cons, h, hm]; simp
    · right; simp [h]

theorem mem_le_listMax (l : List T) (x : T) (hx : x ∈ l) : x ≤ listMax l := by
  cases l with
  | nil => simp at hx
  | cons y ys =>
    rcases List.mem_cons.mp hx with h | h
    · subst h; exact le_foldl_max ys x
    · exact mem_le_foldl_max ys y x h

theorem listMax_mem (l : List T) (h : l ≠ []) : listMax l ∈ l := by
  cases l with
  | nil => exact absurd rfl h
  | cons y ys =>
    rcases foldl_max_mem ys y with h1 | h1
    · rw [listMax, h1]; simp
    · rw [listMax]; simp [h1]

theorem listMin_le_mem (l : List T) (x : T) (hx : x ∈ l) : listMin l ≤ x := by
  cases l with
  | nil => simp at hx
  | cons y ys =>
    rcases List.mem_cons.mp hx with h | h
    · subst h; exact foldl_min_le ys x
    · exact foldl_min_le_mem ys y x h

theorem listMin_mem (l : List T) (h : l ≠ []) : listMin l ∈ l := by
  cases l with
  | nil => exact absurd rfl h
  | cons y ys =>
    rcases foldl_min_mem ys y with h1 | h1
    · rw [listMin, h1]; simp
    · rw [listMin]; simp [h1]

/-! ## Claim theorems: Timestamp Locator and Truncation Calculator -/

/-- C2: a Timestamp Locator / resolve lookup on a stream's truncated range
never fails: it is a total function whose result always lies within
`[start_index, end_index]`; an instant at or before the stream's first
addressable timestamp resolves to `start_index`, and an instant after the
last resolves to `end_index` (clamping to the nearest boundary index). -/
theorem C2_out_of_range_clamps (s : StreamDesc T) (t : T)
    (hs : List.Sorted (· ≤ ·) s.timestamps)
    (hse : s.startIndex ≤ s.endIndex)
    (he : s.endIndex < s.timestamps.length) :
    (s.startIndex ≤ resolveAt s t ∧ resolveAt s t ≤ s.endIndex) ∧
    (t ≤ s.timestamps.getD s.startIndex 0 → resolveAt s t = s.startIndex) ∧
    (s.timestamps.getD s.endIndex 0 < t → resolveAt s t = s.endIndex) := by
  unfold resolveAt
  exact ⟨locateBounded_mem _ _ _ _ hse he,
    fun h => locateBounded_before _ _ _ _ hs hse he h,
    fun h => locateBounded_after _ _ _ _ hs hse he h⟩

/-- Witness for C2 at a concrete truncated stream. -/
theorem C2_out_of_range_clamps_witness :
    (List.Sorted (· ≤ ·) wTrunc.timestamps ∧ wTrunc.startIndex ≤ wTrunc.endIndex ∧
      wTrunc.endIndex < wTrunc.timestamps.length) ∧
    resolveAt wTrunc (-5 : ℤ) = 1 ∧ resolveAt wTrunc 100 = 2 :=
  ⟨⟨by decide, by decide, by decide⟩,
   (C2_out_of_range_clamps wTrunc (-5) (by decide) (by decide) (by decide)).2.1
     (by decide),
   (C2_out_of_range_clamps wTrunc 100 (by decide) (by decide) (by decide)).2.2
     (by decide)⟩

/-- C4: when some participating stream's wall-clock interval ends before
another's begins — an empty intersection — the Truncation Calculator
raises the fatal `EmptyOverlap` error instead of returning a degenerate or
inverted window. -/
theorem C4_empty_overlap_fatal (ref : StreamDesc T) (others : List (StreamDesc T))
    (baseline : ℕ)
    (h : ∃ s1 ∈ participants ref others, ∃ s2 ∈ participants ref others,
      lastT s2 < headT s1) :
    calculate_truncation_points ref others baseline =
      Except.error AlignError.emptyOverlap := by
  obtain ⟨s1, h1, s2, h2, hlt⟩ := h
  have hgs : headT s1 ≤ globalStart ref others :=
    mem_le_listMax _ _ (List.mem_map_of_mem headT h1)
  have hge : globalEnd ref others ≤ lastT s2 :=
    listMin_le_mem _ _ (List.mem_map_of_mem lastT h2)
  simp only [calculate_truncation_points]
  rw [if_pos (lt_of_le_of_lt hge (lt_of_lt_of_le hlt hgs))]

/-- Witness for C4: one stream starts at tick 100, another ends at 50. -/
theorem C4_empty_overlap_fatal_witness :
    (∃ s1 ∈ participants wLateCam [wEarlyEmg],
      ∃ s2 ∈ participants wLateCam [wEarlyEmg], lastT s2 < headT s1) ∧
    calculate_truncation_points wLateCam [wEarlyEmg] 0 =
      Except.error AlignError.emptyOverlap :=
  ⟨by decide, C4_empty_overlap_fatal wLateCam [wEarlyEmg] 0 (by decide)⟩

/-- C1 counterexample: the Alignment Window invariant
`timestamps[start_index] <= anchor <= timestamps[end_index]` fails on the
Truncation Calculator's own output.  Streams at ticks `[0,10,20]`
(reference, baseline frame 1, anchor 10), `[9,20]` and `[0,15,30]`
intersect to `[9,20]`; the sparse third stream's nearest sample to the
intersection start 9 is its sample at 15, so its `start_index` is 1 and
`timestamps[start_index] = 15 > 10 = anchor`, although that stream has
samples at and after the anchor. -/
theorem C1_window_validity_counterexample :
    calculate_truncation_points wRefCam [wEmg, wImu] 1 =
      Except.ok ((10 : ℤ), [(1, 2), (0, 1), (1, 1)]) ∧
    ¬ (∀ p ∈ (participants wRefCam [wEmg, wImu]).zip [(1, 2), (0, 1), (1, 1)],
        coversAnchor p.1 10 → windowValidAt p.1 10 p.2) :=
  ⟨by decide,
   fun h => absurd ((h (wImu, (1, 1)) (by decide)) ⟨2, by decide, by decide⟩).1
     (by decide)⟩

/-- C1 (amended): the Alignment Window computed by the Truncation
Calculator brackets the anchor and is maximal in wall-clock terms: the
intersection `[globalStart, globalEnd]` contains the anchor, lies inside
every participating stream's recorded interval, attains both of its
endpoints on some participating stream's own first/last timestamp (so it
cannot be widened without leaving some stream's recorded range), and every
stream's `(start_index, end_index)` pair is the nearest-sample projection
of the intersection bounds into that stream's index grid.  (The
per-stream inequality `timestamps[start_index] <= anchor` of the original
claim can fail for sparsely sampled streams, as the counterexample
shows.) -/
theorem C1_window_maximal_wallclock (ref : StreamDesc T)
    (others : List (StreamDesc T)) (baseline : ℕ) (a : T) (w : List (ℕ × ℕ))
    (hok : calculate_truncation_points ref others baseline = Except.ok (a, w))
    (hsorted : ∀ s ∈ participants ref others, List.Sorted (· ≤ ·) s.timestamps)
    (hne : participants ref others ≠ []) :
    globalStart ref others ≤ a ∧ a ≤ globalEnd ref others ∧
    (∀ s ∈ participants ref others,
      headT s ≤ globalStart ref others ∧ globalEnd ref others ≤ lastT s) ∧
    (∃ s ∈ participants ref others, headT s = globalStart ref others) ∧
    (∃ s ∈ participants ref others, lastT s = globalEnd ref others) ∧
    w = (participants ref others).map (fun s =>
      (locate s.timestamps (globalStart ref others),
       locate s.timestamps (globalEnd ref others))) ∧
    (∀ s ∈ participants ref others, ∀ i < s.timestamps.length,
      |s.timestamps.getD (locate s.timestamps (globalStart ref others)) 0 -
        globalStart ref others| ≤ |s.timestamps.getD i 0 - globalStart ref others| ∧
      |s.timestamps.getD (locate s.timestamps (globalEnd ref others)) 0 -
        globalEnd ref others| ≤ |s.timestamps.getD i 0 - globalEnd ref others|) := by
  simp only [calculate_truncation_points] at hok
  by_cases h1 : globalEnd ref others < globalStart ref others
  · rw [if_pos h1] at hok; simp at hok
  rw [if_neg h1] at hok
  by_cases h2 : ref.timestamps.getD baseline 0 < globalStart ref others ∨
      globalEnd ref others < ref.timestamps.getD baseline 0
  · rw [if_pos h2] at hok; simp at hok
  rw [if_neg h2] at hok
  simp only [Except.ok.injEq, Prod.mk.injEq] at hok
  obtain ⟨ha, hw⟩ := hok
  rcases not_or.mp h2 with ⟨h2a, h2b⟩
  refine ⟨ha ▸ not_lt.mp h2a, ha ▸ not_lt.mp h2b, ?_, ?_, ?_, hw.symm, ?_⟩
  · intro s hs
    exact ⟨mem_le_listMax _ _ (List.mem_map_of_mem headT hs),
      listMin_le_mem _ _ (List.mem_map_of_mem lastT hs)⟩
  · have hmm : globalStart ref others ∈ (participants ref others).map headT :=
      listMax_mem _ (by simpa using hne)
    obtain ⟨s, hs, heq⟩ := List.mem_map.mp hmm
    exact ⟨s, hs, heq⟩
  · have hmm : globalEnd ref others ∈ (participants ref others).map lastT :=
      listMin_mem _ (by simpa using hne)
    obtain ⟨s, hs, heq⟩ := List.mem_map.mp hmm
    exact ⟨s, hs, heq⟩
  · intro s hs i hi
    exact ⟨locate_nearest _ _ (hsorted s hs) i hi,
      locate_nearest _ _ (hsorted s hs) i hi⟩

/-- Witness for the amended C1 at a concrete two-stream session. -/
theorem C1_window_maximal_wallclock_witness :
    calculate_truncation_points wRefCam [wEmg] 1 =
      Except.ok ((10 : ℤ), [(1, 2), (0, 1)]) ∧
    globalStart wRefCam [wEmg] ≤ (10 : ℤ) ∧ (10 : ℤ) ≤ globalEnd wRefCam [wEmg] :=
  ⟨by decide,
   (C1_window_maximal_wallclock wRefCam [wEmg] 1 10 [(1, 2), (0, 1)]
     (by decide) (by decide) (by decide)).1,
   (C1_window_maximal_wallclock wRefCam [wEmg] 1 10 [(1, 2), (0, 1)]
     (by decide) (by decide) (by decide)).2.1⟩

/-! ## Claim theorems: Frame Navigator -/

/-- C6: for a valid offset `f`, `resolve_reference` after `set_frame f`
returns `reference.start_index + f`. -/
theorem C6_resolve_reference_roundtrip (nav : Navigator T) (f : ℕ)
    (h : f < truncLen nav.ref) :
    resolve_reference (set_frame nav f) = nav.ref.startIndex + f := by
  unfold resolve_reference set_frame
  rw [if_pos h]

/-- Witness for C6 at a concrete navigator and offset. -/
theorem C6_resolve_reference_roundtrip_witness :
    2 < truncLen wNav.ref ∧
    resolve_reference (set_frame wNav 2) = wNav.ref.startIndex + 2 :=
  ⟨by decide, C6_resolve_reference_roundtrip wNav 2 (by decide)⟩

/-- C7: after any sequence of `set_frame` calls, a non-reference stream's
resolved index is re-derived from the navigator's single shared sync
timestamp (it equals the bounded Timestamp Locator applied to that
instant), so any two streams resolved at the same navigator state are each
nearest — over their truncated regions — to the same instant, regardless
of how many prior `set_frame` calls occurred. -/
theorem C7_resolve_rederived_shared (nav : Navigator T) (ops : List ℕ)
    (s1 s2 : StreamDesc T)
    (hs1 : List.Sorted (· ≤ ·) s1.timestamps)
    (hb1 : s1.startIndex ≤ s1.endIndex)
    (hl1 : s1.endIndex < s1.timestamps.length)
    (hs2 : List.Sorted (· ≤ ·) s2.timestamps)
    (hb2 : s2.startIndex ≤ s2.endIndex)
    (hl2 : s2.endIndex < s2.timestamps.length) :
    resolve (ops.foldl set_frame nav) s1 =
      resolveAt s1 (syncTimestamp (ops.foldl set_frame nav)) ∧
    nearestWithin s1 (syncTimestamp (ops.foldl set_frame nav))
      (resolve (ops.foldl set_frame nav) s1) ∧
    nearestWithin s2 (syncTimestamp (ops.foldl set_frame nav))
      (resolve (ops.foldl set_frame nav) s2) := by
  unfold nearestWithin resolve resolveAt
  exact ⟨rfl,
    ⟨(locateBounded_mem _ _ _ _ hb1 hl1).1, (locateBounded_mem _ _ _ _ hb1 hl1).2,
      locateBounded_nearest _ _ _ _ hs1 hb1 hl1⟩,
    ⟨(locateBounded_mem _ _ _ _ hb2 hl2).1, (locateBounded_mem _ _ _ _ hb2 hl2).2,
      locateBounded_nearest _ _ _ _ hs2 hb2 hl2⟩⟩

/-- Witness for C7: a concrete navigator after three `set_frame` calls. -/
theorem C7_resolve_rederived_shared_witness :
    List.Sorted (· ≤ ·) wEmg.timestamps ∧
    nearestWithin wEmg (syncTimestamp (List.foldl set_frame wNav [2, 0, 1]))
      (resolve (List.foldl set_frame wNav [2, 0, 1]) wEmg) :=
  ⟨by decide,
   (C7_resolve_rederived_shared wNav [2, 0, 1] wEmg wImu (by decide) (by decide)
     (by decide) (by decide) (by decide) (by decide)).2.1⟩

/-- C8: `resolve` is pure and idempotent: in explicit state-passing form
it returns the navigator and the stream unchanged, and a second call on
the returned state yields the same index as the first. -/
theorem C8_resolve_pure_idempotent (nav : Navigator T) (s : StreamDesc T) :
    (resolveS nav s).2.1 = nav ∧ (resolveS nav s).2.2 = s ∧
    (resolveS (resolveS nav s).2.1 (resolveS nav s).2.2).1 = (resolveS nav s).1 :=
  ⟨rfl, rfl, rfl⟩

/-! ## Proofs about the loading pipeline of `main.py` -/

theorem loadEyeThenEmg_eyeCamera (ea : Bool) (gl : Except Unit (StreamDesc T))
    (e : Bool) (l : Except Unit (StreamDesc T)) :
    (loadEyeThenEmg ea gl e l).eyeCamera = loadOpt ea gl := by
  cases ea <;> cases gl <;> cases e <;> cases l <;> rfl

theorem loadEyeThenEmg_emgComponent (ea : Bool) (gl : Except Unit (StreamDesc T))
    (e : Bool) (l : Except Unit (StreamDesc T)) :
    (loadEyeThenEmg ea gl e l).emgComponent = some (loadOpt e l) := by
  cases ea <;> cases gl <;> cases e <;> cases l <;> rfl

theorem loadOpt_error (a : Bool) :
    loadOpt (T := T) a (Except.error ()) = none := by
  cases a <;> rfl

theorem loadImus_error (a : Bool) :
    loadImus (T := T) a (Except.error ()) = [] := by
  cases a <;> rfl

theorem loadCamerasE_flags (avail : String → Bool)
    (camLoad : String → Except Unit (StreamDesc T))
    (hok : ∀ u, ∃ d, camLoad u = Except.ok d) (cfgs : List CameraConfig) :
    ∃ cams, loadCamerasE avail camLoad cfgs = Except.ok cams ∧
      cams.map (·.1) =
        (cfgs.filter (fun c => avail c.videoFile)).map (·.isReference) := by
  induction cfgs with
  | nil => exact ⟨[], rfl, rfl⟩
  | cons c rest ih =>
    obtain ⟨cams, hcams, hmap⟩ := ih
    by_cases h : avail c.videoFile = true
    · obtain ⟨d, hd⟩ := hok c.uniqueId
      refine ⟨(c.isReference, d) :: cams, ?_, ?_⟩
      · unfold loadCamerasE
        rw [if_pos h, hd, hcams]
        rfl
      · simp [List.filter_cons, h, hmap]
    · refine ⟨cams, ?_, ?_⟩
      · unfold loadCamerasE
        rw [if_neg h]
        exact hcams
      · simp [List.filter_cons, h, hmap]

theorem loadCamerasE_countP (avail : String → Bool)
    (camLoad : String → Except Unit (StreamDesc T))
    (cfgs : List CameraConfig) (cams : List (Bool × StreamDesc T))
    (hmap : cams.map (·.1) =
      (cfgs.filter (fun c => avail c.videoFile)).map (·.isReference)) :
    cams.countP (·.1) = reference_camera_count avail cfgs := by
  have h1 := congrArg (List.countP (fun b => b)) hmap
  rw [List.countP_map, List.countP_map] at h1
  unfold reference_camera_count
  simpa [Function.comp] using h1

/-- C3: session construction validates the reference-camera count before
any alignment is computed: with zero loaded cameras flagged as reference
it aborts with the missing-reference error, and with more than one it
aborts with the ambiguous-reference error — for every possible state of
all the other streams and of the baseline frame. -/
theorem C3_reference_validation (cfgs : List CameraConfig) (avail : String → Bool)
    (camLoad : String → Except Unit (StreamDesc T))
    (eyeAvail : Bool) (gazeLoad : Except Unit (StreamDesc T))
    (emgAvail : Bool) (emgLoad : Except Unit (StreamDesc T))
    (insAvail : Bool) (insLoad : Except Unit (StreamDesc T))
    (mvnAvail : Bool) (skelLoad : Except Unit (StreamDesc T))
    (imuLoad : Except Unit (StreamDesc T × StreamDesc T × StreamDesc T))
    (baseline : ℕ)
    (hok : ∀ u, ∃ d, camLoad u = Except.ok d) :
    (reference_camera_count avail cfgs = 0 →
      loadPipeline cfgs avail camLoad eyeAvail gazeLoad emgAvail emgLoad
        insAvail insLoad mvnAvail skelLoad imuLoad baseline =
        Except.error SessionError.missingReference) ∧
    (1 < reference_camera_count avail cfgs →
      loadPipeline cfgs avail camLoad eyeAvail gazeLoad emgAvail emgLoad
        insAvail insLoad mvnAvail skelLoad imuLoad baseline =
        Except.error SessionError.ambiguousReference) := by
  obtain ⟨cams, hcams, hmap⟩ := loadCamerasE_flags avail camLoad hok cfgs
  have hcount := loadCamerasE_countP avail camLoad cfgs cams hmap
  constructor
  · intro h0
    simp only [loadPipeline, sessionAfterCameras, hcams]
    rw [if_pos (by rw [hcount]; exact h0)]
  · intro h1
    simp only [loadPipeline, sessionAfterCameras, hcams]
    rw [if_neg (by rw [hcount]; omega), if_pos (by rw [hcount]; exact h1)]

/-- Witness for C3: a zero-reference and a two-reference configuration. -/
theorem C3_reference_validation_witness :
    (reference_camera_count (fun _ => true) wCfgNoRef = 0 ∧
      loadPipeline (T := ℤ) wCfgNoRef (fun _ => true) (fun _ => Except.ok wRefCam)
        false (Except.error ()) false (Except.error ()) false (Except.error ())
        false (Except.error ()) (Except.error ()) 100 =
        Except.error SessionError.missingReference) ∧
    (1 < reference_camera_count (fun _ => true) wCfgTwoRef ∧
      loadPipeline (T := ℤ) wCfgTwoRef (fun _ => true) (fun _ => Except.ok wRefCam)
        false (Except.error ()) false (Except.error ()) false (Except.error ())
        false (Except.error ()) (Except.error ()) 100 =
        Except.error SessionError.ambiguousReference) :=
  ⟨⟨by decide,
    (C3_reference_validation wCfgNoRef (fun _ => true) (fun _ => Except.ok wRefCam)
      false (Except.error ()) false (Except.error ()) false (Except.error ())
      false (Except.error ()) (Except.error ()) 100
      (fun u => ⟨wRefCam, rfl⟩)).1 (by decide)⟩,
   ⟨by decide,
    (C3_reference_validation wCfgTwoRef (fun _ => true) (fun _ => Except.ok wRefCam)
      false (Except.error ()) false (Except.error ()) false (Except.error ())
      false (Except.error ()) (Except.error ()) 100
      (fun u => ⟨wRefCam, rfl⟩)).2 (by decide)⟩⟩

/-- C5 counterexample: the claim does not hold for non-reference camera
streams.  With one reference camera "a" and one non-reference camera "b",
both files present, a load failure of "b" is not caught by the loading
loop (no try/except around the camera constructor), so session
construction aborts instead of continuing without "b". -/
theorem C5_camera_failure_counterexample :
    loadPipeline (T := ℤ) wCfgOneRef (fun _ => true)
      (fun u => if u = "b" then Except.error () else Except.ok wRefCam)
      false (Except.error ()) false (Except.error ()) false (Except.error ())
      false (Except.error ()) (Except.error ()) 100 =
      Except.error SessionError.cameraLoadFailure := by
  decide

/-- C5 (amended): for the eye, EMG, insole, skeleton and IMU streams a
load failure does not abort session construction: the pipeline's outcome
equals the session assembled with that stream's slot empty (the stream is
excluded from the Alignment Window and all further computation) and with
every other stream's inclusion unchanged.  (Non-reference cameras are not
covered: an absent camera file is skipped, but a camera constructor
exception propagates and aborts, per the counterexample.) -/
theorem C5_soft_missing_non_camera (cfgs : List CameraConfig)
    (avail : String → Bool) (camLoad : String → Except Unit (StreamDesc T))
    (eyeAvail : Bool) (gazeLoad : Except Unit (StreamDesc T))
    (emgAvail : Bool) (emgLoad : Except Unit (StreamDesc T))
    (insAvail : Bool) (insLoad : Except Unit (StreamDesc T))
    (mvnAvail : Bool) (skelLoad : Except Unit (StreamDesc T))
    (imuLoad : Except Unit (StreamDesc T × StreamDesc T × StreamDesc T))
    (baseline : ℕ) :
    (loadPipeline cfgs avail camLoad true (Except.error ()) emgAvail emgLoad
        insAvail insLoad mvnAvail skelLoad imuLoad baseline =
      sessionAfterCameras cfgs avail camLoad none (loadOpt emgAvail emgLoad)
        (loadOpt mvnAvail skelLoad) (loadOpt insAvail insLoad)
        (loadImus mvnAvail imuLoad) baseline) ∧
    (loadPipeline cfgs avail camLoad eyeAvail gazeLoad true (Except.error ())
        insAvail insLoad mvnAvail skelLoad imuLoad baseline =
      sessionAfterCameras cfgs avail camLoad (loadOpt eyeAvail gazeLoad) none
        (loadOpt mvnAvail skelLoad) (loadOpt insAvail insLoad)
        (loadImus mvnAvail imuLoad) baseline) ∧
    (loadPipeline cfgs avail camLoad eyeAvail gazeLoad emgAvail emgLoad
        true (Except.error ()) mvnAvail skelLoad imuLoad baseline =
      sessionAfterCameras cfgs avail camLoad (loadOpt eyeAvail gazeLoad)
        (loadOpt emgAvail emgLoad) (loadOpt mvnAvail skelLoad) none
        (loadImus mvnAvail imuLoad) baseline) ∧
    (loadPipeline cfgs avail camLoad eyeAvail gazeLoad emgAvail emgLoad
        insAvail insLoad mvnAvail (Except.error ()) imuLoad baseline =
      sessionAfterCameras cfgs avail camLoad (loadOpt eyeAvail gazeLoad)
        (loadOpt emgAvail emgLoad) none (loadOpt insAvail insLoad)
        (loadImus mvnAvail imuLoad) baseline) ∧
    (loadPipeline cfgs avail camLoad eyeAvail gazeLoad emgAvail emgLoad
        insAvail insLoad mvnAvail skelLoad (Except.error ()) baseline =
      sessionAfterCameras cfgs avail camLoad (loadOpt eyeAvail gazeLoad)
        (loadOpt emgAvail emgLoad) (loadOpt mvnAvail skelLoad)
        (loadOpt insAvail insLoad) [] baseline) := by
  refine ⟨?_, ?_, ?_, ?_, ?_⟩
  · simp only [loadPipeline]
    rw [loadEyeThenEmg_eyeCamera, loadEyeThenEmg_emgComponent]
    rfl
  · simp only [loadPipeline]
    rw [loadEyeThenEmg_eyeCamera, loadEyeThenEmg_emgComponent]
    rfl
  · simp only [loadPipeline]
    rw [loadEyeThenEmg_eyeCamera, loadEyeThenEmg_emgComponent]
    rfl
  · simp only [loadPipeline]
    rw [loadEyeThenEmg_eyeCamera, loadEyeThenEmg_emgComponent, loadOpt_error]
    rfl
  · simp only [loadPipeline]
    rw [loadEyeThenEmg_eyeCamera, loadEyeThenEmg_emgComponent, loadImus_error]
    rfl

/-- C10: a failure while constructing the eye camera leaves every other
stream's inclusion unchanged: `eye_camera` stays `None`; the exception
handler does assign `emg_component = None` (the slip at line 167), but
`emg_component` is unconditionally reinitialized at line 172, so after
the EMG block the final `emg_component` depends only on the EMG source's
own availability and load outcome, for every eye-camera outcome. -/
theorem C10_eye_failure_isolated (emgAvail : Bool)
    (emgLoad : Except Unit (StreamDesc T)) (eyeAvail : Bool)
    (gazeLoad : Except Unit (StreamDesc T)) :
    (loadEyeThenEmg true (Except.error ()) emgAvail emgLoad).eyeCamera = none ∧
    (eyeBlock true (Except.error ())
      (⟨none, none⟩ : EyeEmgState T)).emgComponent = some none ∧
    (loadEyeThenEmg eyeAvail gazeLoad emgAvail emgLoad).emgComponent =
      some (loadOpt emgAvail emgLoad) := by
  refine ⟨?_, rfl, loadEyeThenEmg_emgComponent eyeAvail gazeLoad emgAvail emgLoad⟩
  rw [loadEyeThenEmg_eyeCamera]
  rfl

/-! ## Proofs about the click handler -/

theorem optClick_length {β : Type} (o : Option β) (c : Option Point) :
    (optClick o c).length = if o.isSome then 1 else 0 := by
  cases o <;> rfl

theorem clickArgs_length (cams : List (CamView T)) (eye : Option (EyeView T))
    (emg : Option (PlotView T)) (skel : Option (SeriesView T))
    (insole : Option (PlotView T)) (imuA imuG imuM : Option (SeriesView T))
    (camClicks : List (Option Point))
    (e1 e2 e3 e4 a1 a2 a3 : Option Point) :
    (clickArgs cams eye emg skel insole imuA imuG imuM camClicks
      e1 e2 e3 e4 a1 a2 a3).length =
      cams.length + ((if eye.isSome then 1 else 0) + ((if emg.isSome then 1 else 0) +
        ((if skel.isSome then 1 else 0) + ((if insole.isSome then 1 else 0) +
          ((if imuA.isSome then 1 else 0) + ((if imuG.isSome then 1 else 0) +
            (if imuM.isSome then 1 else 0))))))) := by
  simp [clickArgs, optClick_length]

section ClickHandlerProofs

variable [ToString T]

theorem emg_click_branch_isSome (cams : List (CamView T)) (eye : Option (EyeView T))
    (emg : Option (PlotView T)) (skel : Option (SeriesView T))
    (insole : Option (PlotView T)) (imuA imuG imuM : Option (SeriesView T))
    (camClicks : List (Option Point)) (e1 e2 e3 e4 a1 a2 a3 : Option Point)
    (trigger : String) (sync : Option T) :
    (emg_click_branch cams eye emg trigger
      (clickArgs cams eye emg skel insole imuA imuG imuM camClicks
        e1 e2 e3 e4 a1 a2 a3) sync).isSome = true := by
  cases emg with
  | none => rfl
  | some comp =>
    simp only [emg_click_branch]
    split
    · have hidx : cams.length + (if eye.isSome then 1 else 0) <
        (clickArgs cams eye (some comp) skel insole imuA imuG imuM camClicks
          e1 e2 e3 e4 a1 a2 a3).length := by
        rw [clickArgs_length]
        simp only [Option.isSome_some, if_true]
        omega
      cases hv : (clickArgs cams eye (some comp) skel insole imuA imuG imuM camClicks
          e1 e2 e3 e4 a1 a2 a3).get? (cams.length + (if eye.isSome then 1 else 0)) with
      | none =>
        exact absurd (List.get?_eq_none.mp hv) (by omega)
      | some click =>
        simp only [hv]
        cases click with
        | none => rfl
        | some pt =>
          simp only []
          split
          · rename_i hguard
            have hlt : (pyInt ((((max 0 ((comp.getTimestampForSync sync : ℤ) -
                pyFloorDiv (pyInt (comp.plotWindowSeconds * comp.samplingRate)) 2)) : ℤ) : ℚ) +
                pt.x * comp.samplingRate)).toNat < comp.sampleTimestamps.length := by
              omega
            cases hr : comp.sampleTimestamps.get? ((pyInt ((((max 0
                ((comp.getTimestampForSync sync : ℤ) -
                pyFloorDiv (pyInt (comp.plotWindowSeconds * comp.samplingRate)) 2)) : ℤ) : ℚ) +
                pt.x * comp.samplingRate)).toNat) with
            | none => exact absurd (List.get?_eq_none.mp hr) (by omega)
            | some v => simp [hr]
          · rfl
    · rfl

theorem insole_click_branch_isSome (cams : List (CamView T))
    (eye : Option (EyeView T)) (emg : Option (PlotView T))
    (skel : Option (SeriesView T)) (insole : Option (PlotView T))
    (imuA imuG imuM : Option (SeriesView T))
    (camClicks : List (Option Point)) (e1 e2 e3 e4 a1 a2 a3 : Option Point)
    (trigger : String) (sync : Option T) :
    (insole_click_branch cams eye emg skel insole trigger
      (clickArgs cams eye emg skel insole imuA imuG imuM camClicks
        e1 e2 e3 e4 a1 a2 a3) sync).isSome = true := by
  cases insole with
  | none => rfl
  | some comp =>
    simp only [insole_click_branch]
    split
    · have hidx : cams.length + (if eye.isSome then 1 else 0) +
        (if emg.isSome then 1 else 0) + (if skel.isSome then 1 else 0) <
        (clickArgs cams eye emg skel (some comp) imuA imuG imuM camClicks
          e1 e2 e3 e4 a1 a2 a3).length := by
        rw [clickArgs_length]
        simp only [Option.isSome_some, if_true]
        omega
      cases hv : (clickArgs cams eye emg skel (some comp) imuA imuG imuM camClicks
          e1 e2 e3 e4 a1 a2 a3).get? (cams.length + (if eye.isSome then 1 else 0) +
          (if emg.isSome then 1 else 0) + (if skel.isSome then 1 else 0)) with
      | none =>
        exact absurd (List.get?_eq_none.mp hv) (by omega)
      | some click =>
        simp only [hv]
        cases click with
        | none => rfl
        | some pt =>
          simp only []
          split
          · rename_i hguard
            cases hr : comp.sampleTimestamps.get? ((pyInt ((((max 0
                ((comp.getTimestampForSync sync : ℤ) -
                pyFloorDiv (pyInt (comp.plotWindowSeconds * comp.samplingRate)) 2)) : ℤ) : ℚ) +
                pt.x * comp.samplingRate)).toNat) with
            | none => exact absurd (List.get?_eq_none.mp hr) (by omega)
            | some v => simp [hr]
          · rfl
    · rfl

theorem skeleton_click_branch_isSome (skel : Option (SeriesView T))
    (trigger : String) (sync : Option T) :
    (skeleton_click_branch skel trigger sync).isSome = true := by
  cases skel with
  | none => rfl
  | some comp =>
    simp only [skeleton_click_branch]
    split
    · split
      · split
        · rename_i hlt
          cases hr : comp.timestamps.get? (comp.getTimestampForSync sync) with
          | none => exact absurd (List.get?_eq_none.mp hr) (by omega)
          | some v => simp [hr]
        · rfl
      · rfl
    · rfl

theorem imu_click_branch_isSome (imuA imuG imuM : Option (SeriesView T))
    (trigger : String) (sync : Option T) :
    (imu_click_branch imuA imuG imuM trigger sync).isSome = true := by
  simp only [imu_click_branch]
  split
  · split
    · rfl
    · rename_i comp heq
      split
      · split
        · rename_i hlt
          cases hr : comp.timestamps.get? (comp.getTimestampForSync sync) with
          | none => exact absurd (List.get?_eq_none.mp hr) (by omega)
          | some v => simp [hr]
        · rfl
      · rfl
  · rfl

/-- C9: for every click event and navigator state, `handle_all_clicks`
never reads a timestamp array out of bounds and always returns a string:
the EMG and insole branches read `_sample_timestamps[clicked_idx]` only
under the `0 <= clicked_idx < len` guard, and the skeleton and IMU
branches substitute timestamp `0` whenever the resolved index is out of
range.  (`none` would model an uncaught `IndexError`; the result is
provably always `some` string when the argument tuple is wired as in the
source.) -/
theorem C9_handle_all_clicks_safe (cams : List (CamView T))
    (eye : Option (EyeView T)) (emg : Option (PlotView T))
    (skel : Option (SeriesView T)) (insole : Option (PlotView T))
    (imuA imuG imuM : Option (SeriesView T))
    (camClicks : List (Option Point)) (e1 e2 e3 e4 a1 a2 a3 : Option Point)
    (trigger : String) (currentFrame : ℕ) (sync : Option T) :
    (handle_all_clicks cams eye emg skel insole imuA imuG imuM trigger
      (clickArgs cams eye emg skel insole imuA imuG imuM camClicks
        e1 e2 e3 e4 a1 a2 a3) currentFrame sync).isSome = true := by
  simp only [handle_all_clicks]
  cases h1 : handle_camera_clicks cams trigger currentFrame sync with
  | some s => rfl
  | none =>
    cases h2 : eye_click_branch eye trigger sync with
    | some s => rfl
    | none =>
      have h3 := emg_click_branch_isSome cams eye emg skel insole imuA imuG imuM
        camClicks e1 e2 e3 e4 a1 a2 a3 trigger sync
      cases h3v : emg_click_branch cams eye emg trigger
          (clickArgs cams eye emg skel insole imuA imuG imuM camClicks
            e1 e2 e3 e4 a1 a2 a3) sync with
      | none => rw [h3v] at h3; simp at h3
      | some r3 =>
        simp only [h3v]
        cases r3 with
        | some s => rfl
        | none =>
          have h4 := insole_click_branch_isSome cams eye emg skel insole
            imuA imuG imuM camClicks e1 e2 e3 e4 a1 a2 a3 trigger sync
          cases h4v : insole_click_branch cams eye emg skel insole trigger
              (clickArgs cams eye emg skel insole imuA imuG imuM camClicks
                e1 e2 e3 e4 a1 a2 a3) sync with
          | none => rw [h4v] at h4; simp at h4
          | some r4 =>
            simp only [h4v]
            cases r4 with
            | some s => rfl
            | none =>
              have h5 := skeleton_click_branch_isSome skel trigger sync
              cases h5v : skeleton_click_branch skel trigger sync with
              | none => rw [h5v] at h5; simp at h5
              | some r5 =>
                simp only [h5v]
                cases r5 with
                | some s => rfl
                | none =>
                  have h6 := imu_click_branch_isSome imuA imuG imuM trigger sync
                  cases h6v : imu_click_branch imuA imuG imuM trigger sync with
                  | none => rw [h6v] at h6; simp at h6
                  | some r6 =>
                    simp only [h6v]
                    cases r6 with
                    | some s => rfl
                    | none => rfl

end ClickHandlerProofs

end PhysioViz
